import Mathlib

/-!
Verification of the TalentScout interview assistant's conversation core.

Shallow embedding of the repository's conversation state machine
(`main.py` — `TalentScoutApp.process_conversation` and its phase
handlers), the persistence layer (`db_manager.py` — `DatabaseManager`),
the real-time analyzer (`analysis_engine.py` —
`ConversationalAnalyzer.analyze_answer_realtime`) and the pure score
helpers (`utils.py` — `ScoreCalculator`).

Modelling conventions:
  * SQLite tables become Lean lists of records, appended in insertion
    order; `SELECT ... WHERE email = ?` with a single expected row
    becomes `List.find?`, and `DELETE`/`UPDATE ... WHERE email = ?`
    become `List.filter`/`List.map` over the matching rows.
  * Python floats become `ℚ`; Python's `round(x, 1)` becomes
    round-half-to-even at one decimal digit.
  * The external LLM client is an oracle supplied per call: each
    generation either yields a value or fails, standing for an exception
    or unparsable JSON; the code's `try/except` fallbacks are modelled
    exactly.
  * Timestamp columns, the `generated_questions` column and the
    `candidate_id` column of `conversations` are never read by the
    control flow modelled here and are omitted from the records.
-/

namespace TalentScout

/-- Conversation phases, from the `ConversationStates` constants in
`utils.py`. -/
inductive ConversationStates where
  | INTERVIEW_PREP
  | CONVERSATIONAL_INTRO
  | DYNAMIC_INTERVIEW
  | REAL_TIME_ANALYSIS
  | POST_INTERVIEW_QA
  | CONVERSATION_TERMINATED
deriving DecidableEq, Repr

/-- Position of a phase along the fixed interview path, used to express
forward-only progression. -/
def phaseIdx : ConversationStates → Nat
  | .INTERVIEW_PREP => 0
  | .CONVERSATIONAL_INTRO => 1
  | .DYNAMIC_INTERVIEW => 2
  | .REAL_TIME_ANALYSIS => 3
  | .POST_INTERVIEW_QA => 4
  | .CONVERSATION_TERMINATED => 5

/-- `needle` occurs as a contiguous substring of `hay` (character
lists); mirrors Python's `needle in hay` for strings. -/
def listContainsSub : List Char → List Char → Bool
  | [], needle => needle.isEmpty
  | h :: t, needle => needle.isPrefixOf (h :: t) || listContainsSub t needle

/-- Python's `needle in hay` on strings. -/
def pyIn (needle hay : String) : Bool :=
  listContainsSub hay.data needle.data

/-- Python's `str.lower()` (per-character ASCII lowering, which is what
`.lower()` does on the ASCII keyword sets involved). -/
def pyLower (s : String) : String :=
  ⟨s.data.map Char.toLower⟩

/-- Python's `any(keyword in user_input.lower() for keyword in keywords)`,
as used by the keyword checks in `main.py`. -/
def hasKeyword (keywords : List String) (user_input : String) : Bool :=
  keywords.any (fun k => pyIn k (pyLower user_input))

/-- Round a rational to the nearest integer, ties to even — the
behaviour of Python 3's built-in `round` (on values exactly
representable). -/
def roundHalfEven (x : ℚ) : ℤ :=
  if x - ⌊x⌋ < 1/2 then ⌊x⌋
  else if 1/2 < x - ⌊x⌋ then ⌊x⌋ + 1
  else if ⌊x⌋ % 2 = 0 then ⌊x⌋ else ⌊x⌋ + 1

/-- Python's `round(x, 1)`: round to one decimal digit, ties to even. -/
def pyRound1 (x : ℚ) : ℚ :=
  (roundHalfEven (10 * x) : ℚ) / 10

/-- `ScoreCalculator.calculate_overall_score` from `utils.py`:
`round(technical*0.4 + communication*0.3 + problem_solving*0.3, 1)`. -/
def calculate_overall_score (technical_score communication_score problem_solving_score : ℚ) : ℚ :=
  pyRound1 (technical_score * 0.4 + communication_score * 0.3 + problem_solving_score * 0.3)

/-- `ScoreCalculator.get_performance_level` from `utils.py`. -/
def get_performance_level (score : ℚ) : String :=
  if 8 ≤ score then "Excellent"
  else if 6 ≤ score then "Good"
  else if 4 ≤ score then "Average"
  else "Needs Improvement"

/-! ## Data model: rows of the SQLite tables in `db_manager.py` -/

/-- Row of the `conversations` table (columns read by the control flow;
`candidate_id`, `generated_questions` and the timestamps are never read
by the modelled paths and are omitted). -/
structure ConvRecord where
  email : String
  current_state : ConversationStates
  user_name : String
  current_question_number : Nat
deriving DecidableEq, Repr

/-- Row of the `interview_qa` table. -/
structure QARecord where
  email : String
  question_number : Nat
  question_text : String
  user_answer : String
  feedback_score : Option ℚ
  feedback_text : Option String
deriving DecidableEq, Repr

/-- Row of the `chat_messages` table. -/
structure ChatMessage where
  email : String
  message_type : String
  message_content : String
deriving DecidableEq, Repr

/-- Row of the `conversation_memory` table (timestamp omitted; rows are
kept in insertion order). -/
structure MemoryRecord where
  email : String
  role : String
  content : String
deriving DecidableEq, Repr

/-- Row of the `candidates` table (fields read by the modelled control
flow: id for the analysis upsert, email for lookup, and the tech stack,
stored as JSON text but modelled directly as the decoded list since the
decode is a store-boundary serialization step). -/
structure Candidate where
  id : Nat
  email : String
  tech_stack : List String
deriving DecidableEq, Repr

/-- The dict produced by the comprehensive-analysis LLM call; `Option`
fields model keys that may be missing from the parsed JSON
(`analysis_data.get(key, default)`). -/
structure AnalysisData where
  overall_score : Option ℚ
  technical_score : Option ℚ
  communication_score : Option ℚ
  problem_solving_score : Option ℚ
  key_strengths : Option (List String)
  areas_for_growth : Option (List String)
  specific_recommendations : Option (List String)
  hiring_recommendation : Option String
  summary_feedback : Option String
  detailed_analysis : Option String
  next_steps_suggestion : Option String
deriving DecidableEq, Repr

/-- Row of the `candidate_analysis` table (list-valued columns are
stored as JSON text in SQLite; modelled as the lists themselves). -/
structure AnalysisRecord where
  candidate_id : Nat
  email : String
  overall_score : ℚ
  technical_score : ℚ
  communication_score : ℚ
  problem_solving_score : ℚ
  key_strengths : List String
  areas_for_growth : List String
  specific_recommendations : List String
  hiring_recommendation : String
  summary_feedback : String
  detailed_analysis : String
deriving DecidableEq, Repr

/-- The SQLite database of `db_manager.py`: each table is its list of
rows in insertion (rowid) order. -/
structure Database where
  candidates : List Candidate
  conversations : List ConvRecord
  chat_messages : List ChatMessage
  interview_qa : List QARecord
  conversation_memory : List MemoryRecord
  candidate_analysis : List AnalysisRecord
deriving DecidableEq, Repr

/-! ## `DatabaseManager` operations -/

/-- `DatabaseManager.get_conversation_state`: `if not email: return None`,
then `SELECT * FROM conversations WHERE email = ?` taking the first row. -/
def get_conversation_state (db : Database) (email : String) : Option ConvRecord :=
  if email = "" then none
  else db.conversations.find? (fun r => r.email == email)

/-- `DatabaseManager.save_message`: append one row to `chat_messages`. -/
def save_message (db : Database) (email message_type content : String) : Database :=
  { db with chat_messages := db.chat_messages ++ [⟨email, message_type, content⟩] }

/-- `DatabaseManager.save_conversation_exchange`: append the user row and
the assistant row to `conversation_memory`. -/
def save_conversation_exchange (db : Database) (email user_input bot_response : String) :
    Database :=
  { db with conversation_memory :=
      db.conversation_memory ++ [⟨email, "user", user_input⟩, ⟨email, "assistant", bot_response⟩] }

/-- `DatabaseManager.get_conversation_exchange_count`:
`SELECT COUNT(*) FROM conversation_memory WHERE email = ? AND role = 'user'`. -/
def get_conversation_exchange_count (db : Database) (email : String) : Nat :=
  (db.conversation_memory.filter (fun r => r.email == email && r.role == "user")).length

/-- `DatabaseManager.get_conversation_context`: the last `6` rows for the
email, in chronological order. -/
def get_conversation_context (db : Database) (email : String) : List MemoryRecord :=
  (((db.conversation_memory.filter (fun r => r.email == email)).reverse.take 6)).reverse

/-- `DatabaseManager.save_interview_qa_with_feedback`: append one row to
`interview_qa`. -/
def save_interview_qa_with_feedback (db : Database) (email : String) (question_number : Nat)
    (question_text user_answer : String) (feedback_score : Option ℚ)
    (feedback_text : Option String) : Database :=
  { db with interview_qa :=
      db.interview_qa ++ [⟨email, question_number, question_text, user_answer,
        feedback_score, feedback_text⟩] }

/-- Stable insertion of a row into a list sorted by `question_number`
(equal keys keep earlier rows first, matching SQLite's stable rowid
tie order). -/
def insertByQnum (q : QARecord) : List QARecord → List QARecord
  | [] => [q]
  | h :: t => if h.question_number ≤ q.question_number then h :: insertByQnum q t
              else q :: h :: t

/-- Stable sort by `question_number` (ascending). -/
def sortByQnum : List QARecord → List QARecord
  | [] => []
  | h :: t => insertByQnum h (sortByQnum t)

/-- `DatabaseManager.get_interview_qa_with_feedback`:
`SELECT ... FROM interview_qa WHERE email = ? ORDER BY question_number ASC`. -/
def get_interview_qa_with_feedback (db : Database) (email : String) : List QARecord :=
  sortByQnum (db.interview_qa.filter (fun r => r.email == email))

/-- `DatabaseManager.get_candidate_data`:
`SELECT * FROM candidates WHERE email = ?` taking the first row. -/
def get_candidate_data (db : Database) (email : String) : Option Candidate :=
  db.candidates.find? (fun c => c.email == email)

/-- `DatabaseManager.get_candidate_analysis`:
`SELECT * FROM candidate_analysis WHERE email = ?` taking the first row. -/
def get_candidate_analysis (db : Database) (email : String) : Option AnalysisRecord :=
  db.candidate_analysis.find? (fun a => a.email == email)

/-- `DatabaseManager.save_comprehensive_analysis`: if a row for the email
exists, `UPDATE ... WHERE email = ?` (which rewrites the analysis fields
of every matching row but leaves `candidate_id` untouched — the UPDATE
does not set it); otherwise INSERT a fresh row. -/
def save_comprehensive_analysis (db : Database) (candidate_id : Nat) (email : String)
    (a : AnalysisData) : Database :=
  if db.candidate_analysis.any (fun r => r.email == email) then
    { db with candidate_analysis := db.candidate_analysis.map (fun r =>
        if r.email == email then
          { r with
            overall_score := a.overall_score.getD 0
            technical_score := a.technical_score.getD 0
            communication_score := a.communication_score.getD 0
            problem_solving_score := a.problem_solving_score.getD 0
            key_strengths := a.key_strengths.getD []
            areas_for_growth := a.areas_for_growth.getD []
            specific_recommendations := a.specific_recommendations.getD []
            hiring_recommendation := a.hiring_recommendation.getD ""
            summary_feedback := a.summary_feedback.getD ""
            detailed_analysis := a.detailed_analysis.getD "" }
        else r) }
  else
    { db with candidate_analysis := db.candidate_analysis ++
        [⟨candidate_id, email, a.overall_score.getD 0, a.technical_score.getD 0,
          a.communication_score.getD 0, a.problem_solving_score.getD 0,
          a.key_strengths.getD [], a.areas_for_growth.getD [],
          a.specific_recommendations.getD [], a.hiring_recommendation.getD "",
          a.summary_feedback.getD "", a.detailed_analysis.getD ""⟩] }

/-- `DatabaseManager.create_or_update_conversation`. When a row for the
email exists, updates only the supplied fields (Python truthiness: the
state and user name update only when non-empty, the question number
whenever not `None`); otherwise inserts a fresh row with defaults.
The `candidate_id` and `generated_questions` parameters are omitted:
no modelled call site passes them. The per-row update is split out as
`applyConvUpdate` for the proofs. -/
def applyConvUpdate (state : Option ConversationStates) (user_name : Option String)
    (question_number : Option Nat) (r : ConvRecord) : ConvRecord :=
  { r with
    current_state := state.getD r.current_state
    user_name := if user_name.getD "" ≠ "" then user_name.getD "" else r.user_name
    current_question_number := question_number.getD r.current_question_number }

def create_or_update_conversation (db : Database) (email : String)
    (state : Option ConversationStates) (user_name : Option String)
    (question_number : Option Nat) : Database :=
  match get_conversation_state db email with
  | some _ =>
      { db with conversations := db.conversations.map (fun r =>
          if r.email == email then applyConvUpdate state user_name question_number r else r) }
  | none =>
      { db with conversations := db.conversations ++
          [⟨email, state.getD .INTERVIEW_PREP, user_name.getD "", question_number.getD 0⟩] }

/-- `DatabaseManager.clear_conversation`: DELETE the email's rows from
`conversations`, `chat_messages`, `interview_qa` and
`conversation_memory` (and from no other table). -/
def clear_conversation (db : Database) (email : String) : Database :=
  { db with
    conversations := db.conversations.filter (fun r => !(r.email == email))
    chat_messages := db.chat_messages.filter (fun r => !(r.email == email))
    interview_qa := db.interview_qa.filter (fun r => !(r.email == email))
    conversation_memory := db.conversation_memory.filter (fun r => !(r.email == email)) }

/-- `DatabaseManager.get_chat_history`: the email's chat messages in
chronological order. -/
def get_chat_history (db : Database) (email : String) : List ChatMessage :=
  db.chat_messages.filter (fun m => m.email == email)

/-! ## The external LLM client as an oracle

Each generation call either yields a value or fails; a failure stands
for any exception in the corresponding `try` block (API error, or
`json.loads` raising on unparsable content). The code's `except`
fallbacks are reproduced exactly. -/

/-- The dict parsed from the real-time feedback JSON; `Option` fields
model keys that may be missing (`feedback.get(key, default)`). -/
structure Feedback where
  encouraging_feedback : Option String
  score : Option ℚ
  key_strength : Option String
  improvement_area : Option String
  confidence_level : Option String
deriving DecidableEq, Repr

/-- Outcome of the real-time feedback LLM call in
`ConversationalAnalyzer.analyze_answer_realtime`: either the `try`
block produced a parsed dict, or something in it raised. -/
inductive RealtimeOutcome where
  | parsed (fb : Feedback)
  | failed
deriving DecidableEq, Repr

/-- The fixed fallback dict returned by
`ConversationalAnalyzer.analyze_answer_realtime` on any exception. -/
def fallbackFeedback : Feedback :=
  { encouraging_feedback := some "Nice answer! You gave good technical details."
    score := some 7.5
    key_strength := some "Clear technical reasoning"
    improvement_area := some "Consider mentioning edge cases to show depth"
    confidence_level := some "Medium" }

/-- `ConversationalAnalyzer.analyze_answer_realtime`: returns the parsed
LLM dict, or the fixed fallback when the call raises or the response is
unparsable. The question and answer only feed the prompt. -/
def analyze_answer_realtime (outcome : RealtimeOutcome) (_question _answer : String) : Feedback :=
  match outcome with
  | .parsed fb => fb
  | .failed => fallbackFeedback

/-- One `process_conversation` turn's generation outcomes: each field is
the result of the corresponding LLM call, `none` meaning the call
raised (or, for `comprehensive`, returned unparsable JSON). -/
structure GenOracle where
  conversational_response : Option String
  first_question : Option String
  next_question : Option String
  realtime_feedback : RealtimeOutcome
  comprehensive : Option AnalysisData
  context_response : Option String
deriving DecidableEq, Repr

/-- `TalentScoutApp._generate_conversational_response` with its
exception fallback. -/
def generate_conversational_response (o : GenOracle) : String :=
  o.conversational_response.getD
    "That's interesting! Tell me more about your experience and what you're currently working on."

/-- `TalentScoutApp._generate_first_technical_question` with its
exception fallback (built from the candidate's first tech-stack entry). -/
def generate_first_technical_question (o : GenOracle) (cand : Candidate) : String :=
  match o.first_question with
  | some q => q
  | none =>
      let main_tech := cand.tech_stack.headD "programming"
      "Let's start with your experience in " ++ main_tech ++
        ". Can you walk me through a project where you used " ++ main_tech ++
        " and what you learned from it?"

/-- `TalentScoutApp._generate_next_dynamic_question` with its exception
fallback. -/
def generate_next_dynamic_question (o : GenOracle) : String :=
  o.next_question.getD
    "That's a good foundation! Let's explore another area. Can you tell me about a technical challenge you faced recently and how you solved it?"

/-- `TalentScoutApp._generate_context_based_response` with its exception
fallback. -/
def generate_context_based_response (o : GenOracle) : String :=
  o.context_response.getD
    "I apologize, but I'm having trouble processing your question right now. Our team will be in touch with you soon regarding next steps."

/-- `ConversationalAnalyzer.generate_comprehensive_analysis`: on success
parses the analysis, saves it through
`save_comprehensive_analysis(candidate_id, email, analysis)` and
returns it; on any exception returns `None` without saving. -/
def generate_comprehensive_analysis (o : GenOracle) (db : Database) (candidate_id : Nat)
    (email : String) : Database × Option AnalysisData :=
  match o.comprehensive with
  | some a => (save_comprehensive_analysis db candidate_id email a, some a)
  | none => (db, none)

/-! ## The conversation controller (`TalentScoutApp` in `main.py`) -/

/-- Result of one `process_conversation` call: the not-found early
return (database untouched), an uncaught Python exception (database as
of the raise point), or a normal return with the assistant response. -/
inductive ProcResult where
  | notFoundError (db : Database) (message : String)
  | exn (db : Database)
  | ok (db : Database) (response : String)
deriving DecidableEq, Repr

/-- The database as left behind by a `process_conversation` call. -/
def ProcResult.database : ProcResult → Database
  | .notFoundError db _ => db
  | .exn db => db
  | .ok db _ => db

/-- Suffix appended to the rapport response when the exchange threshold
is reached (`_handle_conversational_intro`). -/
def introTransitionSuffix : String :=
  "\n\n🎯 **Great! I have a good sense of your background now. Let's start with some technical questions that build on what you've shared. Ready?**"

/-- Fixed response of `_handle_terminated_state`. -/
def terminatedResponse : String :=
  "This conversation has ended. Thank you for your time!"

/-- Fallthrough response of `process_conversation` for a phase with no
handler (`INTERVIEW_PREP`). -/
def unsureResponse : String :=
  "I'm not sure how to help with that. Could you please clarify?"

/-- `_present_comprehensive_analysis` early return when the analysis is
`None` (returned without saving an assistant message). -/
def analysisUnavailableResponse : String :=
  "I'm having trouble generating your analysis right now. Let me know if you have any questions about the interview process."

/-- End-keyword response of `_handle_real_time_analysis`. -/
def rtaEndResponse (user_name : String) : String :=
  "Perfect! Thank you for completing the interview, " ++ user_name ++
    "! 🎉\n\n💬 **Feel free to ask me any questions about the process, timeline, or next steps. I'm here to help!**\n\nOr say **'goodbye'** when you're ready to end our conversation."

/-- Fallback response of `_handle_real_time_analysis` when the stored
analysis cannot be read. -/
def rtaNoAnalysisResponse : String :=
  "I'd love to provide more details, but I'm having trouble accessing your analysis. Feel free to ask any other questions!"

/-- General response of `_handle_real_time_analysis` when no keyword
matches. -/
def rtaGeneralResponse : String :=
  "Is there anything specific you'd like to know more about regarding your performance or next steps? You can ask for more details or say 'done' when you're ready to finish."

/-- The closing message of `_handle_post_interview_qa` on a termination
keyword. -/
def postQaClosing (user_name : String) : String :=
  "Thank you for your time, " ++ user_name ++
    "! 🙏\n\nYour interview has been completed and recorded. Our team will review your responses and get back to you soon.\n\nWe appreciate your interest in joining our team. Have a great day! ✨\n\n*This conversation has ended. You can close this window.*"

/-- Suffix appended to the context-based post-interview answer. -/
def postQaSuffix : String :=
  "\n\nAnything else you'd like to know? Feel free to ask, or say **'goodbye'** when you're ready to end our conversation."

/-- Plain rendering of a rational for message text (stands in for
Python's number formatting inside f-strings; never load-bearing). -/
def qStr (q : ℚ) : String :=
  toString q.num ++ "/" ++ toString q.den

/-- The formatted performance-analysis message of
`_present_comprehensive_analysis` (template from `main.py`, scores and
lists interpolated). -/
def analysisResponseText (user_name : String) (a : AnalysisData) : String :=
  let overall := a.overall_score.getD 0
  let bullets := fun (l : List String) => String.join (l.map (fun s => "• " ++ s ++ "\n"))
  "🎉 **Interview Complete!** Thank you, " ++ user_name ++
    "!\n\n📊 **Your Performance Analysis:**\n\n**Overall Score: " ++ qStr overall ++
    "/10** (" ++ get_performance_level overall ++
    ")\n• **Technical Knowledge:** " ++ qStr (a.technical_score.getD 0) ++
    "/10\n• **Communication Skills:** " ++ qStr (a.communication_score.getD 0) ++
    "/10\n• **Problem Solving:** " ++ qStr (a.problem_solving_score.getD 0) ++
    "/10\n\n💪 **Your Key Strengths:**\n" ++ bullets (a.key_strengths.getD []) ++
    "\n📈 **Areas for Growth:**\n" ++ bullets (a.areas_for_growth.getD []) ++
    "\n🎯 **Personalized Recommendations:**\n" ++ bullets (a.specific_recommendations.getD []) ++
    "\n**Summary:** " ++
    a.summary_feedback.getD "You showed good technical understanding and communication skills." ++
    "\n\n**Next Steps Suggestion:** " ++
    a.next_steps_suggestion.getD "Continue building your skills and gaining practical experience." ++
    "\n\n---\n\n🚀 **What's Next?**\n• Our technical team will review your complete performance\n• We'll be in touch within 2-3 business days with next steps\n• Keep building on your strengths while working on growth areas\n\nWould you like me to explain any part of this analysis in more detail? Or do you have questions about the next steps?"

/-- `TalentScoutApp._provide_detailed_tips`. -/
def provide_detailed_tips (a : AnalysisRecord) (user_name : String) : String :=
  if a.areas_for_growth ≠ [] ∧ a.specific_recommendations ≠ [] then
    "Here are some detailed tips for your growth, " ++ user_name ++
      ":\n\n**Specific Areas to Focus On:**\n" ++
      String.join ((a.areas_for_growth.zip a.specific_recommendations).enum.map
        (fun p => "\n**" ++ toString (p.1 + 1) ++ ". " ++ p.2.1 ++ "**\n   💡 " ++ p.2.2 ++ "\n")) ++
      "\n**General Tips:**\n• Set up a regular learning schedule (even 30 minutes daily helps)\n• Build small projects to practice new concepts\n• Join tech communities and forums for support\n• Consider online courses or tutorials for structured learning\n• Practice explaining technical concepts to improve communication\n\nRemember, growth takes time. Focus on one area at a time and celebrate your progress! 🌟"
  else
    "You're doing great, " ++ user_name ++
      "! Keep building on your current strengths and stay curious about new technologies. The key to growth is consistent practice and learning."

/-- The question an incoming answer replies to:
`previous_qa[-1]['question'] if previous_qa else "Introduction question"`. -/
def lastQuestionOf (previous_qa : List QARecord) : String :=
  match previous_qa.getLast? with
  | some qa => qa.question_text
  | none => "Introduction question"

/-- Keywords ending the `REAL_TIME_ANALYSIS` phase. -/
def rtaEndKeywords : List String :=
  ["no", "done", "finish", "goodbye", "bye", "thanks"]

/-- Keywords asking for more detail in `REAL_TIME_ANALYSIS`. -/
def rtaContinueKeywords : List String :=
  ["yes", "continue", "more", "tell me more", "explain"]

/-- Termination keywords of `_handle_post_interview_qa`. -/
def postQaEndingKeywords : List String :=
  ["thank you", "goodbye", "bye", "thanks", "end", "finish", "done", "exit", "quit"]

/-- `TalentScoutApp._present_comprehensive_analysis`: on a missing
analysis, an early return with no write; otherwise format, save the
assistant message and return. -/
def present_comprehensive_analysis (db : Database) (email : String) (conv : ConvRecord)
    (analysis : Option AnalysisData) : ProcResult :=
  match analysis with
  | none => .ok db analysisUnavailableResponse
  | some a =>
      let response := analysisResponseText conv.user_name a
      let db := save_message db email "assistant" response
      .ok db response

/-- `TalentScoutApp._handle_conversational_intro`. A missing candidate
row makes `candidate_data.get(...)` raise (`exn`). After three user
exchanges the phase advances to `DYNAMIC_INTERVIEW` with question
number 1. -/
def handle_conversational_intro (db : Database) (email user_input : String) (o : GenOracle) :
    ProcResult :=
  match get_candidate_data db email with
  | none => .exn db
  | some _ =>
      let response := generate_conversational_response o
      let db := save_conversation_exchange db email user_input response
      let exchange_count := get_conversation_exchange_count db email
      if 3 ≤ exchange_count then
        let response := response ++ introTransitionSuffix
        let db := create_or_update_conversation db email (some .DYNAMIC_INTERVIEW) none (some 1)
        let db := save_message db email "assistant" response
        .ok db response
      else
        let db := save_message db email "assistant" response
        .ok db response

/-- `TalentScoutApp._handle_dynamic_interview`. An answer turn scores
the answer (fallback-totalized), appends the `interview_qa` row, and —
as soon as five rows exist — moves the phase to `REAL_TIME_ANALYSIS`
before the comprehensive-analysis call is even attempted. -/
def handle_dynamic_interview (db : Database) (email user_answer : String) (conv : ConvRecord)
    (o : GenOracle) : ProcResult :=
  match get_candidate_data db email with
  | none => .exn db
  | some cand =>
      let current_q_num := conv.current_question_number
      let previous_qa := get_interview_qa_with_feedback db email
      if previous_qa ≠ [] ∨ 1 < current_q_num then
        let last_question := lastQuestionOf previous_qa
        let feedback := analyze_answer_realtime o.realtime_feedback last_question user_answer
        let db := save_interview_qa_with_feedback db email current_q_num last_question
          user_answer (some (feedback.score.getD 0)) (some (feedback.encouraging_feedback.getD ""))
        let previous_qa := get_interview_qa_with_feedback db email
        if 5 ≤ previous_qa.length then
          let db := create_or_update_conversation db email (some .REAL_TIME_ANALYSIS) none none
          let pair := generate_comprehensive_analysis o db cand.id email
          present_comprehensive_analysis pair.1 email conv pair.2
        else
          let next_question := generate_next_dynamic_question o
          let response := "**" ++ feedback.encouraging_feedback.getD "Great answer!" ++
            "** 👍\n\n" ++ next_question
          let db := create_or_update_conversation db email none none (some (current_q_num + 1))
          let db := save_message db email "assistant" response
          .ok db response
      else
        let first_question := generate_first_technical_question o cand
        let response := "Perfect! Let's dive into some technical areas now.\n\n" ++ first_question
        let db := create_or_update_conversation db email none none (some (current_q_num + 1))
        let db := save_message db email "assistant" response
        .ok db response

/-- `TalentScoutApp._handle_real_time_analysis`: an end keyword moves
the phase to `POST_INTERVIEW_QA`; a continue keyword replays stored
analysis tips; anything else is a generic prompt. -/
def handle_real_time_analysis (db : Database) (email user_input : String) (conv : ConvRecord) :
    ProcResult :=
  if hasKeyword rtaEndKeywords user_input then
    let db := create_or_update_conversation db email (some .POST_INTERVIEW_QA) none none
    let response := rtaEndResponse conv.user_name
    let db := save_message db email "assistant" response
    .ok db response
  else if hasKeyword rtaContinueKeywords user_input then
    let response :=
      match get_candidate_analysis db email with
      | some analysis => provide_detailed_tips analysis conv.user_name
      | none => rtaNoAnalysisResponse
    let db := save_message db email "assistant" response
    .ok db response
  else
    let db := save_message db email "assistant" rtaGeneralResponse
    .ok db rtaGeneralResponse

/-- `TalentScoutApp._handle_post_interview_qa`: a termination keyword
moves the phase to `CONVERSATION_TERMINATED` and returns the fixed
closing message; otherwise a context-based answer (whose prompt
construction dereferences the candidate row, raising when absent). -/
def handle_post_interview_qa (db : Database) (email user_input : String) (conv : ConvRecord)
    (o : GenOracle) : ProcResult :=
  if hasKeyword postQaEndingKeywords user_input then
    let db := create_or_update_conversation db email (some .CONVERSATION_TERMINATED) none none
    let response := postQaClosing conv.user_name
    let db := save_message db email "assistant" response
    .ok db response
  else
    match get_candidate_data db email with
    | none => .exn db
    | some _ =>
        let response := generate_context_based_response o ++ postQaSuffix
        let db := save_message db email "assistant" response
        .ok db response

/-- `TalentScoutApp._handle_terminated_state`: fixed response, saved to
the chat transcript. -/
def handle_terminated_state (db : Database) (email : String) : ProcResult :=
  let db := save_message db email "assistant" terminatedResponse
  .ok db terminatedResponse

/-- `TalentScoutApp.process_conversation`: resolve the conversation
state (early error return when absent), append the user message to the
chat transcript, and dispatch on the current phase. -/
def process_conversation (db : Database) (email user_input : String) (o : GenOracle) :
    ProcResult :=
  match get_conversation_state db email with
  | none => .notFoundError db "Error: Conversation state not found."
  | some conv =>
      let db := save_message db email "user" user_input
      match conv.current_state with
      | .CONVERSATIONAL_INTRO => handle_conversational_intro db email user_input o
      | .DYNAMIC_INTERVIEW => handle_dynamic_interview db email user_input conv o
      | .REAL_TIME_ANALYSIS => handle_real_time_analysis db email user_input conv
      | .POST_INTERVIEW_QA => handle_post_interview_qa db email user_input conv o
      | .CONVERSATION_TERMINATED => handle_terminated_state db email
      | .INTERVIEW_PREP => .ok db unsureResponse

/-- The phase stored for an email, if any. -/
def phaseOf (db : Database) (email : String) : Option ConversationStates :=
  (get_conversation_state db email).map (fun c => c.current_state)

/-- One turn of the interview loop: the database left behind by
`process_conversation` on one user input with one set of generation
outcomes. -/
def runStep (email : String) (db : Database) (turn : String × GenOracle) : Database :=
  (process_conversation db email turn.1 turn.2).database

/-- A whole session: fold `process_conversation` over a list of turns. -/
def runTrace (email : String) (db : Database) (trace : List (String × GenOracle)) : Database :=
  trace.foldl (runStep email) db

/-- Number of `conversations` rows stored for an email. -/
def convCount (db : Database) (email : String) : Nat :=
  (db.conversations.filter (fun r => r.email == email)).length

/-- Number of `candidate_analysis` rows stored for an email. -/
def analysisCount (db : Database) (email : String) : Nat :=
  (db.candidate_analysis.filter (fun r => r.email == email)).length

/-- An upsert operation against the store: either
`create_or_update_conversation` or `save_comprehensive_analysis`. -/
inductive StoreOp where
  | upsertConv (email : String) (state : Option ConversationStates)
      (user_name : Option String) (question_number : Option Nat)
  | saveAnalysis (candidate_id : Nat) (email : String) (a : AnalysisData)

/-- Apply one upsert operation. -/
def applyOp (db : Database) : StoreOp → Database
  | .upsertConv e s u q => create_or_update_conversation db e s u q
  | .saveAnalysis cid e a => save_comprehensive_analysis db cid e a

/-- Apply a sequence of upsert operations. -/
def runOps (db : Database) (ops : List StoreOp) : Database :=
  ops.foldl applyOp db

/-- A sample upsert sequence: two conversation upserts and two analysis
saves for the same identifier. -/
def demoOps : List StoreOp :=
  [.upsertConv "a@b.c" (some .CONVERSATIONAL_INTRO) (some "Ann") (some 0),
   .saveAnalysis 1 "a@b.c"
     ⟨some 8, some 7, some 9, some 8, some ["s1"], some ["g1"], some ["r1"],
      some "Hire", some "sum1", some "det1", some "next1"⟩,
   .upsertConv "a@b.c" (some .DYNAMIC_INTERVIEW) none (some 1),
   .saveAnalysis 1 "a@b.c"
     ⟨some 6, some 6, some 6, some 6, some ["s2"], some ["g2"], some ["r2"],
      some "No hire", some "sum2", some "det2", some "next2"⟩]

/-- An oracle on which every generation call fails. -/
def failingOracle : GenOracle :=
  ⟨none, none, none, .failed, none, none⟩

/-- A concrete mid-interview store: candidate `a@b.c` is still in the
intro phase, two exchanges are already in memory and four questions are
already answered, so the next three turns reach the scoring phase and
then the post-interview phase. -/
def demoSession : Database :=
  { candidates := [⟨1, "a@b.c", ["python"]⟩]
    conversations := [⟨"a@b.c", .CONVERSATIONAL_INTRO, "Ann", 0⟩]
    chat_messages := []
    interview_qa :=
      [⟨"a@b.c", 1, "q1", "a1", some 8, some "t1"⟩,
       ⟨"a@b.c", 2, "q2", "a2", some 8, some "t2"⟩,
       ⟨"a@b.c", 3, "q3", "a3", some 8, some "t3"⟩,
       ⟨"a@b.c", 4, "q4", "a4", some 8, some "t4"⟩]
    conversation_memory :=
      [⟨"a@b.c", "user", "m1"⟩, ⟨"a@b.c", "assistant", "r1"⟩,
       ⟨"a@b.c", "user", "m2"⟩, ⟨"a@b.c", "assistant", "r2"⟩]
    candidate_analysis := [] }

/-- `demoSession` one step later: the conversation is in
`DYNAMIC_INTERVIEW` with four answered questions, one short of the
quota. -/
def demoDynamic : Database :=
  { demoSession with
    conversations := [⟨"a@b.c", .DYNAMIC_INTERVIEW, "Ann", 5⟩] }

/-! ## List lemmas for the store operations -/

/-- Searching for `p` in a list from which every `p`-row was deleted
finds nothing. -/
lemma find?_of_filter_not {α} (l : List α) (p : α → Bool) :
    (l.filter (fun a => !(p a))).find? p = none := by
  induction l with
  | nil => rfl
  | cons h t ih =>
      by_cases hp : p h
      · simp [List.filter_cons, hp, ih]
      · simp only [List.filter_cons, hp, Bool.not_false, if_true]
        simp [List.find?, hp, ih]

/-- Filtering for `p` after deleting every `p`-row yields nothing. -/
lemma filter_of_filter_not {α} (l : List α) (p : α → Bool) :
    (l.filter (fun a => !(p a))).filter p = [] := by
  induction l with
  | nil => rfl
  | cons h t ih =>
      by_cases hp : p h
      · simp [List.filter_cons, hp, ih]
      · simp [List.filter_cons, hp, ih]

/-- Mapping an email-preserving update over the matching rows commutes
with looking the email up. -/
lemma find?_map_ite (l : List ConvRecord) (email : String) (g : ConvRecord → ConvRecord)
    (hg : ∀ r, (g r).email = r.email) :
    (l.map (fun r => if r.email == email then g r else r)).find?
        (fun r => r.email == email) =
      (l.find? (fun r => r.email == email)).map g := by
  induction l with
  | nil => rfl
  | cons h t ih =>
      simp only [List.map_cons]
      by_cases hp : (h.email == email) = true
      · rw [if_pos hp]
        have hgh : ((g h).email == email) = true := by rw [hg]; exact hp
        simp only [List.find?, hp, hgh]
        rfl
      · have hpf : (h.email == email) = false := by simpa using hp
        rw [if_neg hp]
        simp only [List.find?, hpf]
        exact ih

/-- `save_message` leaves the conversation row untouched. -/
lemma get_state_save_message (db : Database) (e t c email : String) :
    get_conversation_state (save_message db e t c) email =
      get_conversation_state db email := rfl

/-- `save_conversation_exchange` leaves the conversation row untouched. -/
lemma get_state_save_exchange (db : Database) (e u b email : String) :
    get_conversation_state (save_conversation_exchange db e u b) email =
      get_conversation_state db email := rfl

/-- `save_interview_qa_with_feedback` leaves the conversation row
untouched. -/
lemma get_state_save_qa (db : Database) (e : String) (n : Nat) (q a : String)
    (fs : Option ℚ) (ft : Option String) (email : String) :
    get_conversation_state (save_interview_qa_with_feedback db e n q a fs ft) email =
      get_conversation_state db email := rfl

/-- `save_comprehensive_analysis` leaves the conversation row
untouched. -/
lemma get_state_save_analysis (db : Database) (cid : Nat) (e email : String)
    (a : AnalysisData) :
    get_conversation_state (save_comprehensive_analysis db cid e a) email =
      get_conversation_state db email := by
  unfold save_comprehensive_analysis
  split <;> rfl

/-- Updating an existing conversation row rewrites exactly that row. -/
lemma get_state_create_or_update (db : Database) (email : String)
    (st : Option ConversationStates) (un : Option String) (qn : Option Nat)
    (conv : ConvRecord) (h : get_conversation_state db email = some conv) :
    get_conversation_state (create_or_update_conversation db email st un qn) email =
      some (applyConvUpdate st un qn conv) := by
  have hne : ¬ email = "" := by
    intro he
    rw [get_conversation_state, if_pos he] at h
    cases h
  unfold create_or_update_conversation
  rw [h]
  unfold get_conversation_state at h ⊢
  rw [if_neg hne] at h ⊢
  dsimp only
  rw [find?_map_ite db.conversations email (applyConvUpdate st un qn) (fun r => rfl), h]
  rfl

/-- `present_comprehensive_analysis` leaves the conversation row
untouched. -/
lemma get_state_present (db : Database) (email : String) (conv0 : ConvRecord)
    (ao : Option AnalysisData) (email2 : String) :
    get_conversation_state ((present_comprehensive_analysis db email conv0 ao).database)
        email2 = get_conversation_state db email2 := by
  unfold present_comprehensive_analysis
  cases ao <;> rfl

/-- The comprehensive-analysis call only writes `candidate_analysis`. -/
lemma get_state_generate (o : GenOracle) (db : Database) (cid : Nat) (email email2 : String) :
    get_conversation_state ((generate_comprehensive_analysis o db cid email).1) email2 =
      get_conversation_state db email2 := by
  unfold generate_comprehensive_analysis
  cases o.comprehensive with
  | none => rfl
  | some a => exact get_state_save_analysis db cid email email2 a

/-- Phase effect of the intro handler: unchanged, or advanced to
`DYNAMIC_INTERVIEW`. -/
lemma phase_handle_intro (db : Database) (email user_input : String) (o : GenOracle)
    (conv : ConvRecord) (h : get_conversation_state db email = some conv) :
    ∃ conv', get_conversation_state
        ((handle_conversational_intro db email user_input o).database) email = some conv' ∧
      (conv'.current_state = conv.current_state ∨
        conv'.current_state = .DYNAMIC_INTERVIEW) := by
  unfold handle_conversational_intro
  split
  · exact ⟨conv, h, Or.inl rfl⟩
  · dsimp only
    split
    · exact ⟨_, get_state_create_or_update _ email _ _ _ conv h, Or.inr rfl⟩
    · exact ⟨conv, h, Or.inl rfl⟩

/-- Phase effect of the dynamic-interview handler: unchanged, or
advanced to `REAL_TIME_ANALYSIS`. -/
lemma phase_handle_dynamic (db : Database) (email user_answer : String) (conv0 : ConvRecord)
    (o : GenOracle) (conv : ConvRecord) (h : get_conversation_state db email = some conv) :
    ∃ conv', get_conversation_state
        ((handle_dynamic_interview db email user_answer conv0 o).database) email = some conv' ∧
      (conv'.current_state = conv.current_state ∨
        conv'.current_state = .REAL_TIME_ANALYSIS) := by
  unfold handle_dynamic_interview
  split
  · exact ⟨conv, h, Or.inl rfl⟩
  · dsimp only
    split
    · split
      · refine ⟨applyConvUpdate (some .REAL_TIME_ANALYSIS) none none conv, ?_, Or.inr rfl⟩
        rw [get_state_present, get_state_generate]
        exact get_state_create_or_update _ email _ _ _ conv h
      · exact ⟨_, get_state_create_or_update _ email _ _ _ conv h, Or.inl rfl⟩
    · exact ⟨_, get_state_create_or_update _ email _ _ _ conv h, Or.inl rfl⟩

/-- Phase effect of the analysis-presentation handler: unchanged, or
advanced to `POST_INTERVIEW_QA`. -/
lemma phase_handle_rta (db : Database) (email user_input : String) (conv0 : ConvRecord)
    (conv : ConvRecord) (h : get_conversation_state db email = some conv) :
    ∃ conv', get_conversation_state
        ((handle_real_time_analysis db email user_input conv0).database) email = some conv' ∧
      (conv'.current_state = conv.current_state ∨
        conv'.current_state = .POST_INTERVIEW_QA) := by
  unfold handle_real_time_analysis
  split
  · exact ⟨_, get_state_create_or_update _ email _ _ _ conv h, Or.inr rfl⟩
  · split
    · exact ⟨conv, h, Or.inl rfl⟩
    · exact ⟨conv, h, Or.inl rfl⟩

/-- Phase effect of the post-interview handler: unchanged, or advanced
to `CONVERSATION_TERMINATED`. -/
lemma phase_handle_postqa (db : Database) (email user_input : String) (conv0 : ConvRecord)
    (o : GenOracle) (conv : ConvRecord) (h : get_conversation_state db email = some conv) :
    ∃ conv', get_conversation_state
        ((handle_post_interview_qa db email user_input conv0 o).database) email = some conv' ∧
      (conv'.current_state = conv.current_state ∨
        conv'.current_state = .CONVERSATION_TERMINATED) := by
  unfold handle_post_interview_qa
  split
  · exact ⟨_, get_state_create_or_update _ email _ _ _ conv h, Or.inr rfl⟩
  · split
    · exact ⟨conv, h, Or.inl rfl⟩
    · exact ⟨conv, h, Or.inl rfl⟩

/-- One `process_conversation` step either keeps the phase or moves it
one arc forward along the fixed path. -/
lemma step_phase (db : Database) (email user_input : String) (o : GenOracle)
    (conv : ConvRecord) (h : get_conversation_state db email = some conv) :
    ∃ conv', get_conversation_state
        ((process_conversation db email user_input o).database) email = some conv' ∧
      (conv'.current_state = conv.current_state ∨
       (conv.current_state = .CONVERSATIONAL_INTRO ∧
         conv'.current_state = .DYNAMIC_INTERVIEW) ∨
       (conv.current_state = .DYNAMIC_INTERVIEW ∧
         conv'.current_state = .REAL_TIME_ANALYSIS) ∨
       (conv.current_state = .REAL_TIME_ANALYSIS ∧
         conv'.current_state = .POST_INTERVIEW_QA) ∨
       (conv.current_state = .POST_INTERVIEW_QA ∧
         conv'.current_state = .CONVERSATION_TERMINATED)) := by
  unfold process_conversation
  rw [h]
  dsimp only
  have h1 : get_conversation_state (save_message db email "user" user_input) email =
      some conv := h
  cases hs : conv.current_state with
  | INTERVIEW_PREP => exact ⟨conv, h1, Or.inl hs⟩
  | CONVERSATIONAL_INTRO =>
      obtain ⟨conv', h', hc⟩ := phase_handle_intro _ email user_input o conv h1
      rcases hc with hc | hc
      · exact ⟨conv', h', Or.inl (hc.trans hs)⟩
      · exact ⟨conv', h', Or.inr (Or.inl ⟨rfl, hc⟩)⟩
  | DYNAMIC_INTERVIEW =>
      obtain ⟨conv', h', hc⟩ := phase_handle_dynamic _ email user_input conv o conv h1
      rcases hc with hc | hc
      · exact ⟨conv', h', Or.inl (hc.trans hs)⟩
      · exact ⟨conv', h', Or.inr (Or.inr (Or.inl ⟨rfl, hc⟩))⟩
  | REAL_TIME_ANALYSIS =>
      obtain ⟨conv', h', hc⟩ := phase_handle_rta _ email user_input conv conv h1
      rcases hc with hc | hc
      · exact ⟨conv', h', Or.inl (hc.trans hs)⟩
      · exact ⟨conv', h', Or.inr (Or.inr (Or.inr (Or.inl ⟨rfl, hc⟩)))⟩
  | POST_INTERVIEW_QA =>
      obtain ⟨conv', h', hc⟩ := phase_handle_postqa _ email user_input conv o conv h1
      rcases hc with hc | hc
      · exact ⟨conv', h', Or.inl (hc.trans hs)⟩
      · exact ⟨conv', h', Or.inr (Or.inr (Or.inr (Or.inr ⟨rfl, hc⟩)))⟩
  | CONVERSATION_TERMINATED => exact ⟨conv, h1, Or.inl hs⟩

/-- `create_or_update_conversation` only writes `conversations`. -/
lemma interview_qa_create_or_update (db : Database) (e : String)
    (st : Option ConversationStates) (un : Option String) (qn : Option Nat) :
    (create_or_update_conversation db e st un qn).interview_qa = db.interview_qa := by
  unfold create_or_update_conversation
  split <;> rfl

/-- `create_or_update_conversation` only writes `conversations`. -/
lemma candidate_analysis_create_or_update (db : Database) (e : String)
    (st : Option ConversationStates) (un : Option String) (qn : Option Nat) :
    (create_or_update_conversation db e st un qn).candidate_analysis =
      db.candidate_analysis := by
  unfold create_or_update_conversation
  split <;> rfl

/-- `save_comprehensive_analysis` only writes `candidate_analysis`. -/
lemma interview_qa_save_analysis (db : Database) (cid : Nat) (e : String)
    (a : AnalysisData) :
    (save_comprehensive_analysis db cid e a).interview_qa = db.interview_qa := by
  unfold save_comprehensive_analysis
  split <;> rfl

/-- `save_comprehensive_analysis` only writes `candidate_analysis`. -/
lemma conversations_save_analysis (db : Database) (cid : Nat) (e : String)
    (a : AnalysisData) :
    (save_comprehensive_analysis db cid e a).conversations = db.conversations := by
  unfold save_comprehensive_analysis
  split <;> rfl

/-- The comprehensive-analysis call only writes `candidate_analysis`. -/
lemma interview_qa_generate (o : GenOracle) (db : Database) (cid : Nat) (e : String) :
    ((generate_comprehensive_analysis o db cid e).1).interview_qa = db.interview_qa := by
  unfold generate_comprehensive_analysis
  cases o.comprehensive with
  | none => rfl
  | some a => exact interview_qa_save_analysis db cid e a

/-- Presenting the analysis only writes `chat_messages`. -/
lemma interview_qa_present (db : Database) (e : String) (conv0 : ConvRecord)
    (ao : Option AnalysisData) :
    ((present_comprehensive_analysis db e conv0 ao).database).interview_qa =
      db.interview_qa := by
  unfold present_comprehensive_analysis
  cases ao <;> rfl

/-- Stable insertion grows the length by one. -/
lemma length_insertByQnum (q : QARecord) (l : List QARecord) :
    (insertByQnum q l).length = l.length + 1 := by
  induction l with
  | nil => rfl
  | cons h t ih =>
      unfold insertByQnum
      split
      · simp [ih]
      · rfl

/-- Sorting preserves the length. -/
lemma length_sortByQnum (l : List QARecord) :
    (sortByQnum l).length = l.length := by
  induction l with
  | nil => rfl
  | cons h t ih =>
      unfold sortByQnum
      rw [length_insertByQnum, ih, List.length_cons]

/-- Appending an answer row for the email grows the stored Q&A list by
exactly one. -/
lemma qa_length_after_save (db : Database) (email : String) (n : Nat) (q a : String)
    (fs : Option ℚ) (ft : Option String) :
    (get_interview_qa_with_feedback
        (save_interview_qa_with_feedback db email n q a fs ft) email).length =
      (get_interview_qa_with_feedback db email).length + 1 := by
  unfold get_interview_qa_with_feedback save_interview_qa_with_feedback
  dsimp only
  rw [length_sortByQnum, length_sortByQnum, List.filter_append]
  simp

/-- Reading the Q&A list through an analysis presentation. -/
lemma get_qa_present (db : Database) (e : String) (conv0 : ConvRecord)
    (ao : Option AnalysisData) (email2 : String) :
    get_interview_qa_with_feedback ((present_comprehensive_analysis db e conv0 ao).database)
        email2 = get_interview_qa_with_feedback db email2 := by
  unfold get_interview_qa_with_feedback
  rw [interview_qa_present]

/-- Reading the Q&A list through the comprehensive-analysis call. -/
lemma get_qa_generate (o : GenOracle) (db : Database) (cid : Nat) (e email2 : String) :
    get_interview_qa_with_feedback ((generate_comprehensive_analysis o db cid e).1) email2 =
      get_interview_qa_with_feedback db email2 := by
  unfold get_interview_qa_with_feedback
  rw [interview_qa_generate]

/-- Reading the Q&A list through a conversation upsert. -/
lemma get_qa_create_or_update (db : Database) (e : String) (st : Option ConversationStates)
    (un : Option String) (qn : Option Nat) (email2 : String) :
    get_interview_qa_with_feedback (create_or_update_conversation db e st un qn) email2 =
      get_interview_qa_with_feedback db email2 := by
  unfold get_interview_qa_with_feedback
  rw [interview_qa_create_or_update]

/-- The phase stored after an upsert on an existing row. -/
lemma phase_create_or_update (db1 : Database) (email : String)
    (st : Option ConversationStates) (un : Option String) (qn : Option Nat)
    (conv1 : ConvRecord) (h : get_conversation_state db1 email = some conv1) :
    (get_conversation_state (create_or_update_conversation db1 email st un qn) email).map
        (fun c => c.current_state) = some (st.getD conv1.current_state) := by
  rw [get_state_create_or_update db1 email st un qn conv1 h]
  rfl

/-- In `DYNAMIC_INTERVIEW` with four stored answers, the dynamic
handler stores the fifth answer and moves to `REAL_TIME_ANALYSIS`, for
every generation outcome. -/
lemma dynamic_transition (db0 : Database) (email user_answer : String) (conv : ConvRecord)
    (o : GenOracle) (cand : Candidate)
    (h : get_conversation_state db0 email = some conv)
    (hc : get_candidate_data db0 email = some cand)
    (hlen : (get_interview_qa_with_feedback db0 email).length = 4) :
    phaseOf ((handle_dynamic_interview db0 email user_answer conv o).database) email =
      some .REAL_TIME_ANALYSIS ∧
    (get_interview_qa_with_feedback
        ((handle_dynamic_interview db0 email user_answer conv o).database) email).length =
      5 := by
  unfold handle_dynamic_interview
  rw [hc]
  dsimp only
  have hne : get_interview_qa_with_feedback db0 email ≠ [] := by
    intro hnil
    rw [hnil] at hlen
    simp at hlen
  rw [if_pos (Or.inl hne)]
  split
  · constructor
    · unfold phaseOf
      rw [get_state_present, get_state_generate]
      exact phase_create_or_update _ email _ none none conv h
    · rw [get_qa_present, get_qa_generate, get_qa_create_or_update, qa_length_after_save,
        hlen]
  · rename_i h5
    exfalso
    rw [qa_length_after_save, hlen] at h5
    omega

/-- In `DYNAMIC_INTERVIEW` with fewer than four stored answers, the
dynamic handler never leaves the phase. -/
lemma dynamic_no_transition (db0 : Database) (email user_answer : String) (conv : ConvRecord)
    (o : GenOracle) (cand : Candidate)
    (h : get_conversation_state db0 email = some conv)
    (hc : get_candidate_data db0 email = some cand)
    (hlen : (get_interview_qa_with_feedback db0 email).length < 4) :
    phaseOf ((handle_dynamic_interview db0 email user_answer conv o).database) email =
      some conv.current_state := by
  unfold handle_dynamic_interview
  rw [hc]
  dsimp only
  split
  · split
    · rename_i h5
      exfalso
      rw [qa_length_after_save] at h5
      omega
    · unfold phaseOf
      dsimp only [ProcResult.database]
      rw [get_state_save_message]
      exact phase_create_or_update _ email none none _ conv h
  · unfold phaseOf
    dsimp only [ProcResult.database]
    rw [get_state_save_message]
    exact phase_create_or_update _ email none none _ conv h

/-- `save_message` only writes `chat_messages`. -/
lemma interview_qa_save_message (db : Database) (e t c : String) :
    (save_message db e t c).interview_qa = db.interview_qa := rfl

/-- An answer turn of the dynamic handler whose feedback call fails
appends exactly one `interview_qa` row, carrying the fallback score
`7.5` and the fallback feedback text. -/
lemma dynamic_saves_fallback (db0 : Database) (email user_answer : String)
    (conv : ConvRecord) (o : GenOracle) (cand : Candidate)
    (hc : get_candidate_data db0 email = some cand)
    (hbranch : get_interview_qa_with_feedback db0 email ≠ [] ∨
      1 < conv.current_question_number)
    (hfail : o.realtime_feedback = .failed) :
    ((handle_dynamic_interview db0 email user_answer conv o).database).interview_qa =
      db0.interview_qa ++
        [⟨email, conv.current_question_number,
          lastQuestionOf (get_interview_qa_with_feedback db0 email), user_answer,
          some 7.5, some "Nice answer! You gave good technical details."⟩] := by
  unfold handle_dynamic_interview
  rw [hc]
  dsimp only
  rw [hfail]
  split
  · split
    · rw [interview_qa_present, interview_qa_generate, interview_qa_create_or_update]
      rfl
    · dsimp only [ProcResult.database]
      rw [interview_qa_save_message, interview_qa_create_or_update]
      rfl
  · rename_i hneg
    exact absurd hbranch hneg

/-- Filtering after an email-preserving map preserves the count. -/
lemma length_filter_map {α} (l : List α) (p : α → Bool) (f : α → α)
    (hf : ∀ a, p (f a) = p a) :
    ((l.map f).filter p).length = (l.filter p).length := by
  induction l with
  | nil => rfl
  | cons x t ih =>
      simp only [List.map_cons, List.filter_cons, hf]
      cases hx : p x
      · simpa [hx] using ih
      · simp [hx, ih]

/-- Searching an appended list when the first part has no match. -/
lemma find?_append_of_none {α} (l1 l2 : List α) (p : α → Bool)
    (h : l1.find? p = none) :
    (l1 ++ l2).find? p = l2.find? p := by
  induction l1 with
  | nil => rfl
  | cons x t ih =>
      simp only [List.find?] at h ⊢
      cases hp : p x
      · rw [hp] at h
        simp only [List.cons_append, List.find?, hp]
        exact ih h
      · rw [hp] at h
        cases h

/-- The per-row update of `create_or_update_conversation` never moves a
row between emails. -/
lemma conv_update_pred (e email : String) (st : Option ConversationStates)
    (un : Option String) (qn : Option Nat) (r : ConvRecord) :
    ((if r.email == e then applyConvUpdate st un qn r else r).email == email) =
      (r.email == email) := by
  by_cases hq : (r.email == e) = true
  · rw [if_pos hq]
    rfl
  · rw [if_neg hq]

/-- A conversation upsert keeps at most one row per (nonempty) email. -/
lemma convCount_create_or_update (db : Database) (e : String)
    (st : Option ConversationStates) (un : Option String) (qn : Option Nat)
    (email : String) (hne : email ≠ "") (h : convCount db email ≤ 1) :
    convCount (create_or_update_conversation db e st un qn) email ≤ 1 := by
  unfold create_or_update_conversation
  cases hg : get_conversation_state db e with
  | some c =>
      unfold convCount at h ⊢
      dsimp only
      rw [length_filter_map _ _ _ (conv_update_pred e email st un qn)]
      exact h
  | none =>
      unfold convCount at h ⊢
      dsimp only
      rw [List.filter_append, List.length_append]
      by_cases he : e = email
      · subst he
        have hg' : db.conversations.find? (fun r => r.email == e) = none := by
          unfold get_conversation_state at hg
          rwa [if_neg hne] at hg
        have hfil : db.conversations.filter (fun r => r.email == e) = [] := by
          rw [List.filter_eq_nil_iff]
          intro a ha
          simpa using List.find?_eq_none.mp hg' a ha
        rw [hfil]
        simp
      · have hrow : (List.filter (fun r => r.email == email)
            [(⟨e, st.getD .INTERVIEW_PREP, un.getD "", qn.getD 0⟩ : ConvRecord)]).length
            = 0 := by
          simp [List.filter_cons, he]
        omega

/-- A conversation upsert never touches the analysis table. -/
lemma analysisCount_create_or_update (db : Database) (e : String)
    (st : Option ConversationStates) (un : Option String) (qn : Option Nat)
    (email : String) :
    analysisCount (create_or_update_conversation db e st un qn) email =
      analysisCount db email := by
  unfold analysisCount
  rw [candidate_analysis_create_or_update]

/-- An analysis save never touches the conversations table. -/
lemma convCount_save_analysis (db : Database) (cid : Nat) (e : String)
    (a : AnalysisData) (email : String) :
    convCount (save_comprehensive_analysis db cid e a) email = convCount db email := by
  unfold convCount
  rw [conversations_save_analysis]

/-- The per-row update of `save_comprehensive_analysis` never moves a
row between emails. -/
lemma analysis_update_pred (e email : String) (a : AnalysisData) (r : AnalysisRecord) :
    ((if r.email == e then
        { r with
          overall_score := a.overall_score.getD 0
          technical_score := a.technical_score.getD 0
          communication_score := a.communication_score.getD 0
          problem_solving_score := a.problem_solving_score.getD 0
          key_strengths := a.key_strengths.getD []
          areas_for_growth := a.areas_for_growth.getD []
          specific_recommendations := a.specific_recommendations.getD []
          hiring_recommendation := a.hiring_recommendation.getD ""
          summary_feedback := a.summary_feedback.getD ""
          detailed_analysis := a.detailed_analysis.getD "" }
      else r).email == email) = (r.email == email) := by
  by_cases hq : (r.email == e) = true
  · rw [if_pos hq]
  · rw [if_neg hq]

/-- An analysis save keeps at most one analysis row per email. -/
lemma analysisCount_save (db : Database) (cid : Nat) (e : String) (a : AnalysisData)
    (email : String) (h : analysisCount db email ≤ 1) :
    analysisCount (save_comprehensive_analysis db cid e a) email ≤ 1 := by
  unfold save_comprehensive_analysis
  split
  · unfold analysisCount at h ⊢
    dsimp only
    rw [length_filter_map _ _ _ (analysis_update_pred e email a)]
    exact h
  · rename_i hany
    unfold analysisCount at h ⊢
    dsimp only
    rw [List.filter_append, List.length_append]
    by_cases he : e = email
    · subst he
      have hfil : db.candidate_analysis.filter (fun r => r.email == e) = [] := by
        rw [List.filter_eq_nil_iff]
        intro r hr hpr
        exact hany (List.any_eq_true.mpr ⟨r, hr, hpr⟩)
      rw [hfil]
      simp
    · have hrow : (List.filter (fun r => r.email == email)
          [(⟨cid, e, a.overall_score.getD 0, a.technical_score.getD 0,
            a.communication_score.getD 0, a.problem_solving_score.getD 0,
            a.key_strengths.getD [], a.areas_for_growth.getD [],
            a.specific_recommendations.getD [], a.hiring_recommendation.getD "",
            a.summary_feedback.getD "", a.detailed_analysis.getD ""⟩ :
            AnalysisRecord)]).length = 0 := by
        simp [List.filter_cons, he]
      omega

/-- Any sequence of upserts keeps at most one conversation row and one
analysis row per nonempty email. -/
lemma runOps_counts (email : String) (hne : email ≠ "") :
    ∀ (ops : List StoreOp) (db : Database),
      convCount db email ≤ 1 → analysisCount db email ≤ 1 →
      convCount (runOps db ops) email ≤ 1 ∧ analysisCount (runOps db ops) email ≤ 1 := by
  intro ops
  induction ops with
  | nil => exact fun db h1 h2 => ⟨h1, h2⟩
  | cons op rest ih =>
      intro db h1 h2
      cases op with
      | upsertConv e st un qn =>
          exact ih _ (convCount_create_or_update db e st un qn email hne h1)
            ((analysisCount_create_or_update db e st un qn email).trans_le h2)
      | saveAnalysis cid e a =>
          exact ih _ ((convCount_save_analysis db cid e a email).trans_le h1)
            (analysisCount_save db cid e a email h2)

/-- The row inserted by `save_comprehensive_analysis` when no row for
the email exists yet. -/
lemma save_analysis_insert (db : Database) (cid : Nat) (email : String) (a : AnalysisData)
    (hany : db.candidate_analysis.any (fun r => r.email == email) = false) :
    save_comprehensive_analysis db cid email a =
      { db with candidate_analysis := db.candidate_analysis ++
          [⟨cid, email, a.overall_score.getD 0, a.technical_score.getD 0,
            a.communication_score.getD 0, a.problem_solving_score.getD 0,
            a.key_strengths.getD [], a.areas_for_growth.getD [],
            a.specific_recommendations.getD [], a.hiring_recommendation.getD "",
            a.summary_feedback.getD "", a.detailed_analysis.getD ""⟩] } := by
  unfold save_comprehensive_analysis
  rw [if_neg (by simp [hany])]

/-- The rewrite performed by `save_comprehensive_analysis` when a row
for the email already exists. -/
lemma save_analysis_update (db : Database) (cid : Nat) (email : String) (a : AnalysisData)
    (hany : db.candidate_analysis.any (fun r => r.email == email) = true) :
    save_comprehensive_analysis db cid email a =
      { db with candidate_analysis := db.candidate_analysis.map (fun r =>
          if r.email == email then
            { r with
              overall_score := a.overall_score.getD 0
              technical_score := a.technical_score.getD 0
              communication_score := a.communication_score.getD 0
              problem_solving_score := a.problem_solving_score.getD 0
              key_strengths := a.key_strengths.getD []
              areas_for_growth := a.areas_for_growth.getD []
              specific_recommendations := a.specific_recommendations.getD []
              hiring_recommendation := a.hiring_recommendation.getD ""
              summary_feedback := a.summary_feedback.getD ""
              detailed_analysis := a.detailed_analysis.getD "" }
          else r) } := by
  unfold save_comprehensive_analysis
  rw [if_pos hany]

/-- Saving an analysis twice for the same candidate, starting with no
stored analysis, leaves exactly one row: the second payload, with the
`candidate_id` of the first insert (the SQL UPDATE does not set it). -/
lemma save_analysis_twice (db : Database) (cid1 cid2 : Nat) (email : String)
    (a1 a2 : AnalysisData) (h : analysisCount db email = 0) :
    analysisCount (save_comprehensive_analysis
        (save_comprehensive_analysis db cid1 email a1) cid2 email a2) email = 1 ∧
    get_candidate_analysis (save_comprehensive_analysis
        (save_comprehensive_analysis db cid1 email a1) cid2 email a2) email =
      some ⟨cid1, email, a2.overall_score.getD 0, a2.technical_score.getD 0,
        a2.communication_score.getD 0, a2.problem_solving_score.getD 0,
        a2.key_strengths.getD [], a2.areas_for_growth.getD [],
        a2.specific_recommendations.getD [], a2.hiring_recommendation.getD "",
        a2.summary_feedback.getD "", a2.detailed_analysis.getD ""⟩ := by
  have hfil : db.candidate_analysis.filter (fun r => r.email == email) = [] := by
    unfold analysisCount at h
    exact List.length_eq_zero.mp h
  have hall := List.filter_eq_nil_iff.mp hfil
  have hany1 : db.candidate_analysis.any (fun r => r.email == email) = false := by
    rw [List.any_eq_false]
    exact hall
  rw [save_analysis_insert db cid1 email a1 hany1]
  rw [save_analysis_update _ cid2 email a2 (by simp)]
  dsimp only
  rw [List.map_append]
  constructor
  · unfold analysisCount
    dsimp only
    rw [List.filter_append, List.length_append,
      length_filter_map _ _ _ (analysis_update_pred email email a2), hfil]
    simp
  · unfold get_candidate_analysis
    dsimp only
    rw [find?_append_of_none]
    · simp
    · rw [List.find?_eq_none]
      intro x hx
      obtain ⟨r, hr, hfr⟩ := List.mem_map.mp hx
      rw [← hfr, analysis_update_pred email email a2 r]
      simpa using hall r hr

/-- One step never decreases the phase index. -/
lemma step_phase_mono (db : Database) (email user_input : String) (o : GenOracle)
    (conv : ConvRecord) (h : get_conversation_state db email = some conv) :
    ∃ conv', get_conversation_state
        ((process_conversation db email user_input o).database) email = some conv' ∧
      phaseIdx conv.current_state ≤ phaseIdx conv'.current_state := by
  obtain ⟨conv', h', hc⟩ := step_phase db email user_input o conv h
  refine ⟨conv', h', ?_⟩
  rcases hc with hc | hc | hc | hc | hc
  · rw [hc]
  · rw [hc.1, hc.2]
    decide
  · rw [hc.1, hc.2]
    decide
  · rw [hc.1, hc.2]
    decide
  · rw [hc.1, hc.2]
    decide

/-- The only step into `POST_INTERVIEW_QA` is from
`REAL_TIME_ANALYSIS` (or from `POST_INTERVIEW_QA` itself). -/
lemma step_phase_into_postqa (db : Database) (email user_input : String) (o : GenOracle)
    (conv conv' : ConvRecord) (h : get_conversation_state db email = some conv)
    (h' : get_conversation_state
      ((process_conversation db email user_input o).database) email = some conv')
    (hq : conv'.current_state = .POST_INTERVIEW_QA) :
    conv.current_state = .REAL_TIME_ANALYSIS ∨
      conv.current_state = .POST_INTERVIEW_QA := by
  obtain ⟨conv'', h'', hc⟩ := step_phase db email user_input o conv h
  have he : conv' = conv'' := by
    rw [h''] at h'
    exact (Option.some.inj h').symm
  rw [he] at hq
  rcases hc with hc | hc | hc | hc | hc
  · right
    exact hc.symm.trans hq
  · exact absurd hq (by rw [hc.2]; decide)
  · exact absurd hq (by rw [hc.2]; decide)
  · left
    exact hc.1
  · exact absurd hq (by rw [hc.2]; decide)

/-- Whole-trace monotonicity of the phase index. -/
lemma runTrace_phase_mono (email : String) :
    ∀ (trace : List (String × GenOracle)) (db : Database) (conv : ConvRecord),
      get_conversation_state db email = some conv →
      ∃ conv', get_conversation_state (runTrace email db trace) email = some conv' ∧
        phaseIdx conv.current_state ≤ phaseIdx conv'.current_state := by
  intro trace
  induction trace with
  | nil => exact fun db conv h => ⟨conv, h, le_refl _⟩
  | cons turn rest ih =>
      intro db conv h
      obtain ⟨conv1, h1, hle1⟩ := step_phase_mono db email turn.1 turn.2 conv h
      obtain ⟨conv', h', hle2⟩ := ih (runStep email db turn) conv1 h1
      exact ⟨conv', h', le_trans hle1 hle2⟩

/-- A session that starts strictly before the scoring phase and is
later observed in `POST_INTERVIEW_QA` passed through
`REAL_TIME_ANALYSIS` at some prefix of the trace. -/
lemma trace_scoring_first (email : String) :
    ∀ (trace : List (String × GenOracle)) (db : Database) (conv : ConvRecord),
      get_conversation_state db email = some conv →
      phaseIdx conv.current_state < 3 →
      phaseOf (runTrace email db trace) email = some .POST_INTERVIEW_QA →
      ∃ t1 t2, trace = t1 ++ t2 ∧
        phaseOf (runTrace email db t1) email = some .REAL_TIME_ANALYSIS := by
  intro trace
  induction trace with
  | nil =>
      intro db conv h hlt hfin
      exfalso
      unfold phaseOf runTrace at hfin
      rw [show (List.foldl (runStep email) db [] : Database) = db from rfl, h] at hfin
      have hc : conv.current_state = .POST_INTERVIEW_QA := by
        simpa using hfin
      rw [hc] at hlt
      simp [phaseIdx] at hlt
  | cons turn rest ih =>
      intro db conv h hlt hfin
      obtain ⟨conv1, h1, hc⟩ := step_phase db email turn.1 turn.2 conv h
      by_cases hRTA : conv1.current_state = .REAL_TIME_ANALYSIS
      · refine ⟨[turn], rest, rfl, ?_⟩
        have h1' : get_conversation_state (runTrace email db [turn]) email = some conv1 := h1
        unfold phaseOf
        rw [h1']
        simp [hRTA]
      · by_cases hlt1 : phaseIdx conv1.current_state < 3
        · obtain ⟨t1, t2, heq, hsc⟩ := ih (runStep email db turn) conv1 h1 hlt1 hfin
          exact ⟨turn :: t1, t2, by rw [heq, List.cons_append], hsc⟩
        · exfalso
          rcases hc with hc | hc | hc | hc | hc
          · rw [hc] at hlt1
            exact hlt1 hlt
          · rw [hc.2] at hlt1
            exact hlt1 (by decide)
          · exact hRTA hc.2
          · rw [hc.1] at hlt
            exact absurd hlt (by decide)
          · rw [hc.1] at hlt
            exact absurd hlt (by decide)

/-! ## Score aggregation lemmas -/

/-- Rounding never moves below the floor. -/
lemma roundHalfEven_ge_floor (y : ℚ) : ⌊y⌋ ≤ roundHalfEven y := by
  unfold roundHalfEven
  split_ifs <;> omega

/-- Rounding a value that is at most the integer `n` yields at most `n`. -/
lemma roundHalfEven_le_of_le {y : ℚ} {n : ℤ} (h : y ≤ (n : ℚ)) : roundHalfEven y ≤ n := by
  unfold roundHalfEven
  have hfy : ((⌊y⌋ : ℤ) : ℚ) ≤ y := Int.floor_le y
  have hfn : ⌊y⌋ ≤ n := by
    have := Int.floor_le_floor (α := ℚ) h
    simpa using this
  split_ifs with h1 h2 h3
  · exact hfn
  · have hq : ((⌊y⌋ : ℤ) : ℚ) + 1/2 < (n : ℚ) := by linarith
    have : ((⌊y⌋ : ℤ) : ℚ) < (n : ℚ) := by linarith
    have : ⌊y⌋ < n := by exact_mod_cast this
    omega
  · exact hfn
  · have heq : y - ((⌊y⌋ : ℤ) : ℚ) = 1/2 := le_antisymm (not_lt.mp h2) (not_lt.mp h1)
    have : ((⌊y⌋ : ℤ) : ℚ) < (n : ℚ) := by linarith
    have : ⌊y⌋ < n := by exact_mod_cast this
    omega

/-- Rounding a nonnegative value stays nonnegative. -/
lemma roundHalfEven_nonneg {y : ℚ} (h : 0 ≤ y) : 0 ≤ roundHalfEven y := by
  have hf : 0 ≤ ⌊y⌋ := Int.floor_nonneg.mpr h
  have := roundHalfEven_ge_floor y
  omega

/-- `pyRound1` maps `[0, _]` into `[0, _]`. -/
lemma pyRound1_nonneg {x : ℚ} (h : 0 ≤ x) : 0 ≤ pyRound1 x := by
  unfold pyRound1
  have h0 : (0 : ℤ) ≤ roundHalfEven (10 * x) := roundHalfEven_nonneg (by linarith)
  have : (0 : ℚ) ≤ (roundHalfEven (10 * x) : ℚ) := by exact_mod_cast h0
  exact div_nonneg this (by norm_num)

/-- `pyRound1` maps `(_, 10]` into `(_, 10]`. -/
lemma pyRound1_le_ten {x : ℚ} (h : x ≤ 10) : pyRound1 x ≤ 10 := by
  unfold pyRound1
  have h0 : roundHalfEven (10 * x) ≤ (100 : ℤ) :=
    roundHalfEven_le_of_le (by push_cast; linarith)
  have hq : (roundHalfEven (10 * x) : ℚ) ≤ 100 := by exact_mod_cast h0
  rw [div_le_iff₀ (by norm_num : (0:ℚ) < 10)]
  linarith

/-! ## Claim theorems -/

/-- C7: `calculate_overall_score` is a pure total function on
`[0,10]^3` computing `0.4*technical + 0.3*communication +
0.3*problem_solving` rounded to one decimal place, with result in
`[0,10]`; and `overall(8,7,9) = 8.0`, `overall(10,10,10) = 10.0`,
`overall(0,0,0) = 0.0`. -/
theorem C7_calculate_overall_score_spec :
    (∀ technical communication problem_solving : ℚ,
      0 ≤ technical → technical ≤ 10 →
      0 ≤ communication → communication ≤ 10 →
      0 ≤ problem_solving → problem_solving ≤ 10 →
      calculate_overall_score technical communication problem_solving =
        pyRound1 (0.4 * technical + 0.3 * communication + 0.3 * problem_solving) ∧
      0 ≤ calculate_overall_score technical communication problem_solving ∧
      calculate_overall_score technical communication problem_solving ≤ 10) ∧
    calculate_overall_score 8 7 9 = 8 ∧
    calculate_overall_score 10 10 10 = 10 ∧
    calculate_overall_score 0 0 0 = 0 := by
  refine ⟨fun t c p ht0 ht1 hc0 hc1 hp0 hp1 => ⟨?_, ?_, ?_⟩, ?_, ?_, ?_⟩
  · unfold calculate_overall_score
    ring_nf
  · exact pyRound1_nonneg (by linarith)
  · exact pyRound1_le_ten (by linarith)
  · with_unfolding_all decide
  · with_unfolding_all decide
  · with_unfolding_all decide

/-- Witness for C7: the bounds instantiated at the concrete input
`(8, 7, 9)`. -/
theorem C7_witness :
    0 ≤ calculate_overall_score 8 7 9 ∧ calculate_overall_score 8 7 9 ≤ 10 := by
  have h := (C7_calculate_overall_score_spec.1 8 7 9 (by norm_num) (by norm_num)
    (by norm_num) (by norm_num) (by norm_num) (by norm_num))
  exact ⟨h.2.1, h.2.2⟩

/-- C8: `get_performance_level` maps every score `≥ 8` to
`Excellent`, `[6,8)` to `Good`, `[4,6)` to `Average`, `< 4` to
`Needs Improvement`, with the stated boundary values. -/
theorem C8_get_performance_level_spec :
    (∀ score : ℚ, 8 ≤ score → get_performance_level score = "Excellent") ∧
    (∀ score : ℚ, 6 ≤ score → score < 8 → get_performance_level score = "Good") ∧
    (∀ score : ℚ, 4 ≤ score → score < 6 → get_performance_level score = "Average") ∧
    (∀ score : ℚ, score < 4 → get_performance_level score = "Needs Improvement") ∧
    get_performance_level 8 = "Excellent" ∧
    get_performance_level 6 = "Good" ∧
    get_performance_level 4 = "Average" ∧
    get_performance_level (3.9 : ℚ) = "Needs Improvement" := by
  refine ⟨fun s h => ?_, fun s h1 h2 => ?_, fun s h1 h2 => ?_, fun s h => ?_, ?_, ?_, ?_, ?_⟩
  · simp [get_performance_level, h]
  · rw [get_performance_level, if_neg (by linarith), if_pos h1]
  · rw [get_performance_level, if_neg (by linarith), if_neg (by linarith), if_pos h1]
  · rw [get_performance_level, if_neg (by linarith), if_neg (by linarith),
      if_neg (by linarith)]
  · with_unfolding_all decide
  · with_unfolding_all decide
  · with_unfolding_all decide
  · with_unfolding_all decide

/-- Witness for C8: the four interval cases instantiated at
`9`, `7`, `5` and `1`. -/
theorem C8_witness :
    get_performance_level 9 = "Excellent" ∧ get_performance_level 7 = "Good" ∧
    get_performance_level 5 = "Average" ∧ get_performance_level 1 = "Needs Improvement" :=
  ⟨C8_get_performance_level_spec.1 9 (by norm_num),
   C8_get_performance_level_spec.2.1 7 (by norm_num) (by norm_num),
   C8_get_performance_level_spec.2.2.1 5 (by norm_num) (by norm_num),
   C8_get_performance_level_spec.2.2.2.1 1 (by norm_num)⟩

/-- C9: a `process_conversation` call whose candidate identifier does
not resolve to a stored `ConversationState` fails with the not-found
error — the fixed user-visible error message of `main.py:576` — as the
terminal result of that call, leaving the database untouched (in
particular nothing is written and nothing is retried within the call). -/
theorem C9_not_found_error :
    ∀ (db : Database) (email user_input : String) (o : GenOracle),
      get_conversation_state db email = none →
      process_conversation db email user_input o =
        .notFoundError db "Error: Conversation state not found." := by
  intro db email user_input o h
  unfold process_conversation
  rw [h]

/-- Witness for C9: an empty store has no conversation for `a@b.c`. -/
theorem C9_witness :
    process_conversation ⟨[], [], [], [], [], []⟩ "a@b.c" "hello"
        ⟨none, none, none, .failed, none, none⟩ =
      .notFoundError ⟨[], [], [], [], [], []⟩ "Error: Conversation state not found." :=
  C9_not_found_error ⟨[], [], [], [], [], []⟩ "a@b.c" "hello"
    ⟨none, none, none, .failed, none, none⟩ (by with_unfolding_all decide)

/-- C4 counterexample: `clear_conversation` does not delete the
`candidate_analysis` row, so after a clear the stored analysis is still
reported — against the claim that `getAnalysis` reports absent. -/
theorem C4_counterexample :
    get_candidate_analysis
      (clear_conversation
        ⟨[], [⟨"a@b.c", .POST_INTERVIEW_QA, "Ann", 3⟩],
         [⟨"a@b.c", "user", "hi"⟩],
         [⟨"a@b.c", 1, "q1", "ans1", some 7, some "good"⟩],
         [⟨"a@b.c", "user", "hi"⟩],
         [⟨7, "a@b.c", 8, 8, 8, 8, ["s"], ["g"], ["r"], "Hire", "sum", "det"⟩]⟩
        "a@b.c") "a@b.c" ≠ none := by
  with_unfolding_all decide

/-- C4 (amended): `clear_conversation` wipes the conversation state,
the chat transcript, the answered questions and the conversation
memory for the identifier, but leaves the `candidate_analysis` table
untouched, so the stored analysis is still reported afterwards. -/
theorem C4_clear_conversation_spec :
    ∀ (db : Database) (email : String),
      get_conversation_state (clear_conversation db email) email = none ∧
      get_chat_history (clear_conversation db email) email = [] ∧
      get_interview_qa_with_feedback (clear_conversation db email) email = [] ∧
      get_conversation_context (clear_conversation db email) email = [] ∧
      (clear_conversation db email).candidate_analysis = db.candidate_analysis ∧
      get_candidate_analysis (clear_conversation db email) email =
        get_candidate_analysis db email := by
  intro db email
  refine ⟨?_, ?_, ?_, ?_, rfl, rfl⟩
  · unfold get_conversation_state clear_conversation
    split
    · rfl
    · exact find?_of_filter_not _ _
  · unfold get_chat_history clear_conversation
    exact filter_of_filter_not _ _
  · unfold get_interview_qa_with_feedback clear_conversation
    rw [show ((({ db with
        conversations := db.conversations.filter (fun r => !(r.email == email))
        chat_messages := db.chat_messages.filter (fun r => !(r.email == email))
        interview_qa := db.interview_qa.filter (fun r => !(r.email == email))
        conversation_memory := db.conversation_memory.filter (fun r => !(r.email == email)) } :
        Database)).interview_qa) = db.interview_qa.filter (fun r => !(r.email == email)) from rfl]
    rw [filter_of_filter_not]
    rfl
  · unfold get_conversation_context clear_conversation
    rw [show ((({ db with
        conversations := db.conversations.filter (fun r => !(r.email == email))
        chat_messages := db.chat_messages.filter (fun r => !(r.email == email))
        interview_qa := db.interview_qa.filter (fun r => !(r.email == email))
        conversation_memory := db.conversation_memory.filter (fun r => !(r.email == email)) } :
        Database)).conversation_memory) =
        db.conversation_memory.filter (fun r => !(r.email == email)) from rfl]
    rw [filter_of_filter_not]
    rfl

/-- C3 counterexample: a `process_conversation` call on a terminated
conversation does write — the user input and the closing message are
appended to `chat_messages` — against the claim that every stored
record, chat messages included, is left unchanged. -/
theorem C3_counterexample :
    ((process_conversation
        ⟨[], [⟨"a@b.c", .CONVERSATION_TERMINATED, "Ann", 6⟩], [], [], [], []⟩
        "a@b.c" "hi" ⟨none, none, none, .failed, none, none⟩).database).chat_messages ≠
      (⟨[], [⟨"a@b.c", .CONVERSATION_TERMINATED, "Ann", 6⟩], [], [], [], []⟩ :
        Database).chat_messages := by
  with_unfolding_all decide

/-- C3 (amended): on a `CONVERSATION_TERMINATED` conversation,
`process_conversation` returns the fixed closing message and leaves the
conversation state, the answered questions, the conversation memory and
the analysis unchanged; the only writes are the two appended chat rows
(the user input, saved for every call, and the closing message). -/
theorem C3_terminated_state_spec :
    ∀ (db : Database) (email user_input : String) (o : GenOracle) (conv : ConvRecord),
      get_conversation_state db email = some conv →
      conv.current_state = .CONVERSATION_TERMINATED →
      process_conversation db email user_input o =
        .ok { db with chat_messages := db.chat_messages ++
                [⟨email, "user", user_input⟩, ⟨email, "assistant", terminatedResponse⟩] }
          terminatedResponse := by
  intro db email user_input o conv h hstate
  unfold process_conversation
  rw [h]
  simp only [hstate]
  unfold handle_terminated_state save_message
  simp

/-- Witness for C3's amended theorem at a concrete terminated store. -/
theorem C3_witness :
    process_conversation
        ⟨[], [⟨"a@b.c", .CONVERSATION_TERMINATED, "Ann", 6⟩], [], [], [], []⟩
        "a@b.c" "bye" ⟨none, none, none, .failed, none, none⟩ =
      .ok ⟨[], [⟨"a@b.c", .CONVERSATION_TERMINATED, "Ann", 6⟩],
           [⟨"a@b.c", "user", "bye"⟩, ⟨"a@b.c", "assistant", terminatedResponse⟩],
           [], [], []⟩
        terminatedResponse :=
  C3_terminated_state_spec
    ⟨[], [⟨"a@b.c", .CONVERSATION_TERMINATED, "Ann", 6⟩], [], [], [], []⟩
    "a@b.c" "bye" ⟨none, none, none, .failed, none, none⟩
    ⟨"a@b.c", .CONVERSATION_TERMINATED, "Ann", 6⟩
    (by with_unfolding_all decide) rfl

/-- C6: in `POST_INTERVIEW_QA`, termination detection is a
case-insensitive substring match of the input against the fixed
closing-phrase set: when some phrase occurs in the (lowercased) input,
the next state is `CONVERSATION_TERMINATED` and the response is the
fixed closing message; when none occurs, the conversation stays in
`POST_INTERVIEW_QA`. -/
theorem C6_post_qa_termination :
    ∀ (db : Database) (email user_input : String) (o : GenOracle) (conv : ConvRecord),
      get_conversation_state db email = some conv →
      conv.current_state = .POST_INTERVIEW_QA →
      ((∃ k ∈ postQaEndingKeywords, pyIn k (pyLower user_input) = true) →
        phaseOf ((process_conversation db email user_input o).database) email =
          some .CONVERSATION_TERMINATED ∧
        (∃ db', process_conversation db email user_input o =
          .ok db' (postQaClosing conv.user_name))) ∧
      ((∀ k ∈ postQaEndingKeywords, pyIn k (pyLower user_input) = false) →
        phaseOf ((process_conversation db email user_input o).database) email =
          some .POST_INTERVIEW_QA) := by
  intro db email user_input o conv h hstate
  have h1 : get_conversation_state (save_message db email "user" user_input) email =
      some conv := h
  constructor
  · intro hex
    have hkw : hasKeyword postQaEndingKeywords user_input = true := by
      unfold hasKeyword
      rw [List.any_eq_true]
      exact hex
    unfold process_conversation
    rw [h]
    dsimp only
    rw [hstate]
    dsimp only
    unfold handle_post_interview_qa
    rw [if_pos hkw]
    refine ⟨?_, ⟨_, rfl⟩⟩
    unfold phaseOf
    dsimp only [ProcResult.database]
    rw [get_state_save_message,
      get_state_create_or_update _ email _ _ _ conv h1]
    rfl
  · intro hall
    have hkw : hasKeyword postQaEndingKeywords user_input = false := by
      unfold hasKeyword
      rw [List.any_eq_false]
      intro k hk
      simp [hall k hk]
    unfold process_conversation
    rw [h]
    dsimp only
    rw [hstate]
    dsimp only
    unfold handle_post_interview_qa
    rw [if_neg (by simp [hkw])]
    split
    · unfold phaseOf
      simp only [ProcResult.database, get_state_save_message]
      rw [h]
      simp [hstate]
    · unfold phaseOf
      simp only [ProcResult.database, get_state_save_message]
      rw [h]
      simp [hstate]

/-- Witness for C6 at a concrete store: `Goodbye!` terminates and
yields the fixed closing message. -/
theorem C6_witness :
    phaseOf ((process_conversation
        ⟨[], [⟨"a@b.c", .POST_INTERVIEW_QA, "Ann", 6⟩], [], [], [], []⟩
        "a@b.c" "Goodbye!" failingOracle).database) "a@b.c" =
      some .CONVERSATION_TERMINATED ∧
    ∃ db', process_conversation
        ⟨[], [⟨"a@b.c", .POST_INTERVIEW_QA, "Ann", 6⟩], [], [], [], []⟩
        "a@b.c" "Goodbye!" failingOracle = .ok db' (postQaClosing "Ann") :=
  (C6_post_qa_termination
    ⟨[], [⟨"a@b.c", .POST_INTERVIEW_QA, "Ann", 6⟩], [], [], [], []⟩
    "a@b.c" "Goodbye!" failingOracle ⟨"a@b.c", .POST_INTERVIEW_QA, "Ann", 6⟩
    (by with_unfolding_all decide) rfl).1
    ⟨"goodbye", by decide, by decide⟩

/-- C2: with the quota of 5, the `process_conversation` call that
stores the fifth answer (the one made with exactly four answers
already stored) moves the conversation to `REAL_TIME_ANALYSIS`, for
every generation outcome — the upsert happens before the
comprehensive-analysis call is attempted — and no earlier call makes
that transition, so it happens exactly once. -/
theorem C2_question_quota_transition :
    ∀ (db : Database) (email user_input : String) (o : GenOracle) (conv : ConvRecord),
      get_conversation_state db email = some conv →
      conv.current_state = .DYNAMIC_INTERVIEW →
      (get_candidate_data db email).isSome = true →
      (((get_interview_qa_with_feedback db email).length = 4 →
        phaseOf ((process_conversation db email user_input o).database) email =
          some .REAL_TIME_ANALYSIS ∧
        (get_interview_qa_with_feedback
          ((process_conversation db email user_input o).database) email).length = 5) ∧
       ((get_interview_qa_with_feedback db email).length < 4 →
        phaseOf ((process_conversation db email user_input o).database) email =
          some .DYNAMIC_INTERVIEW)) := by
  intro db email user_input o conv h hstate hcand
  obtain ⟨cand, hc⟩ := Option.isSome_iff_exists.mp hcand
  unfold process_conversation
  rw [h]
  dsimp only
  rw [hstate]
  dsimp only
  constructor
  · intro hlen
    exact dynamic_transition _ email user_input conv o cand h hc hlen
  · intro hlen
    have h2 := dynamic_no_transition (save_message db email "user" user_input) email
      user_input conv o cand h hc hlen
    rw [hstate] at h2
    exact h2

/-- Witness for C2: with four stored answers, the fifth answer turn
moves `demoDynamic` to `REAL_TIME_ANALYSIS` with five stored answers,
even when every generation call fails. -/
theorem C2_witness :
    phaseOf ((process_conversation demoDynamic "a@b.c" "my answer"
        failingOracle).database) "a@b.c" = some .REAL_TIME_ANALYSIS ∧
    (get_interview_qa_with_feedback ((process_conversation demoDynamic "a@b.c" "my answer"
        failingOracle).database) "a@b.c").length = 5 :=
  (C2_question_quota_transition demoDynamic "a@b.c" "my answer" failingOracle
    ⟨"a@b.c", .DYNAMIC_INTERVIEW, "Ann", 5⟩
    (by with_unfolding_all decide) rfl (by with_unfolding_all decide)).1
    (by with_unfolding_all decide)

/-- C10: `analyze_answer_realtime` is total over generator outcomes —
any exception or unparsable JSON yields the fixed fallback whose score
is `7.5` — and consequently a `DYNAMIC_INTERVIEW` answer turn whose
feedback generation fails stores an `interview_qa` row carrying a
feedback score of `7.5` (not `0` and not absent). -/
theorem C10_realtime_fallback :
    (∀ question answer : String,
      analyze_answer_realtime .failed question answer = fallbackFeedback ∧
      (analyze_answer_realtime .failed question answer).score = some 7.5) ∧
    (∀ (db : Database) (email user_input : String) (o : GenOracle) (conv : ConvRecord),
      get_conversation_state db email = some conv →
      conv.current_state = .DYNAMIC_INTERVIEW →
      (get_candidate_data db email).isSome = true →
      (get_interview_qa_with_feedback db email ≠ [] ∨ 1 < conv.current_question_number) →
      o.realtime_feedback = .failed →
      ∃ row : QARecord,
        ((process_conversation db email user_input o).database).interview_qa =
          db.interview_qa ++ [row] ∧
        row.feedback_score = some 7.5) := by
  constructor
  · exact fun q a => ⟨rfl, rfl⟩
  · intro db email user_input o conv h hstate hcand hbranch hfail
    obtain ⟨cand, hc⟩ := Option.isSome_iff_exists.mp hcand
    unfold process_conversation
    rw [h]
    dsimp only
    rw [hstate]
    dsimp only
    exact ⟨_, dynamic_saves_fallback _ email user_input conv o cand hc hbranch hfail, rfl⟩

/-- Witness for C10 at `demoDynamic`: with a failing feedback call, the
stored row carries the fallback score `7.5`. -/
theorem C10_witness :
    ∃ row : QARecord,
      ((process_conversation demoDynamic "a@b.c" "my answer"
          failingOracle).database).interview_qa =
        demoDynamic.interview_qa ++ [row] ∧
      row.feedback_score = some 7.5 :=
  C10_realtime_fallback.2 demoDynamic "a@b.c" "my answer" failingOracle
    ⟨"a@b.c", .DYNAMIC_INTERVIEW, "Ann", 5⟩ (by with_unfolding_all decide) rfl
    (by with_unfolding_all decide) (Or.inl (by with_unfolding_all decide)) rfl

/-- C5: under any sequence of upserts
(`create_or_update_conversation` / `save_comprehensive_analysis`), at
most one conversation row and at most one analysis row exist per
candidate identifier; and saving an analysis twice for the same
candidate leaves exactly one stored row carrying the second payload
(overwrite, not append). -/
theorem C5_upsert_invariant :
    (∀ (db : Database) (ops : List StoreOp) (email : String), email ≠ "" →
      convCount db email ≤ 1 → analysisCount db email ≤ 1 →
      convCount (runOps db ops) email ≤ 1 ∧
      analysisCount (runOps db ops) email ≤ 1) ∧
    (∀ (db : Database) (cid1 cid2 : Nat) (email : String) (a1 a2 : AnalysisData),
      analysisCount db email = 0 →
      analysisCount (save_comprehensive_analysis
        (save_comprehensive_analysis db cid1 email a1) cid2 email a2) email = 1 ∧
      get_candidate_analysis (save_comprehensive_analysis
        (save_comprehensive_analysis db cid1 email a1) cid2 email a2) email =
        some ⟨cid1, email, a2.overall_score.getD 0, a2.technical_score.getD 0,
          a2.communication_score.getD 0, a2.problem_solving_score.getD 0,
          a2.key_strengths.getD [], a2.areas_for_growth.getD [],
          a2.specific_recommendations.getD [], a2.hiring_recommendation.getD "",
          a2.summary_feedback.getD "", a2.detailed_analysis.getD ""⟩) :=
  ⟨fun db ops email hne h1 h2 => runOps_counts email hne ops db h1 h2,
   fun db cid1 cid2 email a1 a2 h => save_analysis_twice db cid1 cid2 email a1 a2 h⟩

/-- Witness for C5: the sample upsert sequence applied to the empty
store keeps at most one row of each kind for `a@b.c`. -/
theorem C5_witness :
    convCount (runOps ⟨[], [], [], [], [], []⟩ demoOps) "a@b.c" ≤ 1 ∧
    analysisCount (runOps ⟨[], [], [], [], [], []⟩ demoOps) "a@b.c" ≤ 1 :=
  C5_upsert_invariant.1 ⟨[], [], [], [], [], []⟩ demoOps "a@b.c"
    (by decide) (by with_unfolding_all decide) (by with_unfolding_all decide)

/-- C1: the conversation phase only moves forward along the fixed path
— no `process_conversation` call lowers the phase index — and a session
started in `CONVERSATIONAL_INTRO` that is observed in
`POST_INTERVIEW_QA` passed through the scoring phase
`REAL_TIME_ANALYSIS` at some prefix of its trace. -/
theorem C1_phase_progression :
    (∀ (db : Database) (email user_input : String) (o : GenOracle) (conv : ConvRecord),
      get_conversation_state db email = some conv →
      ∃ conv', get_conversation_state
          ((process_conversation db email user_input o).database) email = some conv' ∧
        phaseIdx conv.current_state ≤ phaseIdx conv'.current_state) ∧
    (∀ (db : Database) (email : String) (trace : List (String × GenOracle))
        (conv : ConvRecord),
      get_conversation_state db email = some conv →
      conv.current_state = .CONVERSATIONAL_INTRO →
      phaseOf (runTrace email db trace) email = some .POST_INTERVIEW_QA →
      ∃ t1 t2, trace = t1 ++ t2 ∧
        phaseOf (runTrace email db t1) email = some .REAL_TIME_ANALYSIS) := by
  constructor
  · exact fun db email user_input o conv h => step_phase_mono db email user_input o conv h
  · intro db email trace conv h hintro
    exact trace_scoring_first email trace db conv h (by rw [hintro]; decide)

/-- Witness for C1: a three-turn session of `demoSession` — one intro
exchange, the fifth answer, then `done` — ends in `POST_INTERVIEW_QA`,
and the theorem exhibits the scoring prefix. -/
theorem C1_witness :
    ∃ t1 t2,
      ([("hi", failingOracle), ("my answer", failingOracle), ("done", failingOracle)] :
        List (String × GenOracle)) = t1 ++ t2 ∧
      phaseOf (runTrace "a@b.c" demoSession t1) "a@b.c" =
        some .REAL_TIME_ANALYSIS :=
  C1_phase_progression.2 demoSession "a@b.c"
    [("hi", failingOracle), ("my answer", failingOracle), ("done", failingOracle)]
    ⟨"a@b.c", .CONVERSATIONAL_INTRO, "Ann", 0⟩
    (by with_unfolding_all decide) rfl (by with_unfolding_all decide)

end TalentScout
